import Mathlib

/-!
Shallow embedding of `internal/service/cognitoidp/managed_login_terms.go`
from the terraform-provider-aws repository: the `aws_cognito_managed_login_terms`
resource (schema validators, cross-field links validator, Create / Read /
Update / Delete handlers, composite-ID import, and the two-part-key finder).

Framework plumbing (diagnostics, null/unknown attribute values) is modelled
explicitly; the AWS API calls and the reflective `fwflex.Expand` / `Flatten`
helpers are taken as function parameters of the handler models, so every
theorem quantifies over their behaviour.
-/

namespace ManagedLoginTerms

/-- Severity of a terraform-plugin-framework diagnostic. -/
inductive Severity where
  | error
  | warning
deriving DecidableEq, Repr

/-- A terraform-plugin-framework diagnostic: severity, summary and detail. -/
structure Diagnostic where
  severity : Severity
  summary : String
  detail : String
deriving DecidableEq, Repr

/-- Models `diag.Diagnostics.HasError`: true when some diagnostic has error severity. -/
def hasError (ds : List Diagnostic) : Bool :=
  ds.any (fun d => d.severity == Severity.error)

/-- Models `types.String` of the plugin framework: null, unknown, or a known value. -/
inductive FwString where
  | null
  | unknown
  | value (s : String)
deriving DecidableEq, Repr

/-- Models `types.String.IsNull`. -/
def FwString.isNull : FwString → Bool
  | .null => true
  | _ => false

/-- Models `types.String.IsUnknown`. -/
def FwString.isUnknown : FwString → Bool
  | .unknown => true
  | _ => false

/-- Models `types.String.ValueString`: the known value, or "" for null/unknown. -/
def FwString.valueString : FwString → String
  | .value s => s
  | _ => ""

/-- Models `fwflex.StringToFramework`: nil becomes null, otherwise a known value. -/
def stringToFramework : Option String → FwString
  | none => .null
  | some s => .value s

/-- Models `fwtypes.MapOfString` (the `links` attribute): null, unknown, or a
map of string keys to string values, represented as an association list. -/
inductive FwMap where
  | null
  | unknown
  | value (entries : List (String × String))
deriving DecidableEq, Repr

/-- Models `FwMap.IsNull`. -/
def FwMap.isNull : FwMap → Bool
  | .null => true
  | _ => false

/-- Models `FwMap.IsUnknown`. -/
def FwMap.isUnknown : FwMap → Bool
  | .unknown => true
  | _ => false

/-- Models `managedLoginTermsResourceModel`: the Terraform schema model of the
resource.  The timestamp attributes are carried as framework strings. -/
structure ResourceModel where
  clientID : FwString
  enforcement : FwString
  links : FwMap
  managedLoginTermsID : FwString
  creationDate : FwString
  lastModifiedDate : FwString
  termsName : FwString
  termsSource : FwString
  userPoolID : FwString
deriving DecidableEq, Repr

/-- Models errors returned by the AWS SDK: either a
`ResourceNotFoundException` or any other error, each with a message. -/
inductive AwsError where
  | resourceNotFound (msg : String)
  | other (msg : String)
deriving DecidableEq, Repr

/-- Models `errs.IsA[*awstypes.ResourceNotFoundException](err)` on a non-nil error. -/
def AwsError.isResourceNotFound : AwsError → Bool
  | .resourceNotFound _ => true
  | _ => false

/-- Models `err.Error()`. -/
def AwsError.message : AwsError → String
  | .resourceNotFound m => m
  | .other m => m

/-- Models `awstypes.TermsType` as far as the handlers read it directly: the
handlers only consult `TermsId` (the remaining wire fields are consumed by
`fwflex.Flatten`, which the handler models take as a function parameter). -/
structure TermsType where
  termsId : Option String
deriving DecidableEq, Repr

/-- Models `validatordiag.InvalidAttributeValueDiagnostic(path.Root("links"),
"links must include a cognito:default entry", "missing cognito:default")`,
the diagnostic added by the cross-field validator. -/
def invalidLinksDiagnostic : Diagnostic :=
  { severity := .error
    summary := "Invalid Attribute Value"
    detail := "Attribute links links must include a cognito:default entry, got: missing cognito:default" }

/-- Models `resourceManagedLoginTermsLinksValidator.ValidateResource`.  The
argument is the outcome of `req.Config.Get`: its diagnostics and the decoded
configuration.  `ElementsAs` with `allowUnhandled = true` cannot fail on a
known map of known strings, so on a known map the validator goes straight to
the `cognito:default` membership test. -/
def validateResource (configGet : List Diagnostic × ResourceModel) : List Diagnostic :=
  let (gd, config) := configGet
  if hasError gd then gd
  else if config.links.isUnknown || config.links.isNull then gd
  else match config.links with
    | .value entries =>
        if (entries.map Prod.fst).contains "cognito:default" then gd
        else gd ++ [invalidLinksDiagnostic]
    | _ => gd

/-- The twelve link keys accepted by the anchored pattern
`^cognito:(default|english|french|spanish|german|bahasa-indonesia|italian|japanese|korean|portuguese-brazil|chinese-(simplified|traditional))$`
of the `links` attribute schema.  An anchored alternation of literals matches
a string exactly when the string is one of the literals. -/
def allowedLinkKeys : List String :=
  ["default", "english", "french", "spanish", "german", "bahasa-indonesia",
   "italian", "japanese", "korean", "portuguese-brazil",
   "chinese-simplified", "chinese-traditional"].map (fun l => "cognito:" ++ l)

/-- Models `mapvalidator.SizeAtLeast(1)` on a known map value. -/
def linksSizeAtLeastDiags (entries : List (String × String)) : List Diagnostic :=
  if entries.length < 1 then
    [{ severity := .error, summary := "Invalid Attribute Value",
       detail := "map must contain at least 1 elements" }]
  else []

/-- Models `mapvalidator.SizeAtMost(12)` on a known map value. -/
def linksSizeAtMostDiags (entries : List (String × String)) : List Diagnostic :=
  if entries.length > 12 then
    [{ severity := .error, summary := "Invalid Attribute Value",
       detail := "map must contain at most 12 elements" }]
  else []

/-- Models `mapvalidator.KeysAre(stringvalidator.RegexMatches(...))` on a
known map value: each key must match the anchored language-key pattern. -/
def linksKeysAreDiags (entries : List (String × String)) : List Diagnostic :=
  entries.flatMap (fun p =>
    if allowedLinkKeys.contains p.1 then []
    else [{ severity := .error, summary := "Invalid Attribute Value Match",
            detail := "invalid links key; see allowed Cognito language keys, got: " ++ p.1 }])

/-- Models `mapvalidator.ValueStringsAre(stringvalidator.LengthBetween(1, 1024),
stringvalidator.RegexMatches(...))` on a known map value.
`stringvalidator.LengthBetween` measures Go `len(value)`, the UTF-8 byte
length, modelled as `String.utf8ByteSize`.  The anchored pattern
`^[\p{L}\p{M}\p{S}\p{N}\p{P}]+$` matches exactly the non-empty strings all
of whose characters lie in the bracket class; the bracket class itself (the
union of the Unicode general categories L, M, S, N and P, a large fixed
code-point table) is the parameter `inClass`, so every theorem below holds
for the program's actual table. -/
def linksValuesAreDiags (inClass : Char → Bool) (entries : List (String × String)) :
    List Diagnostic :=
  entries.flatMap (fun p =>
    (if p.2.utf8ByteSize < 1 || p.2.utf8ByteSize > 1024 then
      [{ severity := .error, summary := "Invalid Attribute Value Length",
         detail := "string length must be between 1 and 1024, got: " ++ p.2 }]
     else []) ++
    (if !p.2.toList.isEmpty && p.2.toList.all inClass then []
     else [{ severity := .error, summary := "Invalid Attribute Value Match",
             detail := "invalid links value characters, got: " ++ p.2 }]))

/-- The full list of schema validators declared on the `links` attribute,
run in declaration order on a known map value, parametric in the value
character class. -/
def linksSchemaDiags (inClass : Char → Bool) (entries : List (String × String)) :
    List Diagnostic :=
  linksSizeAtLeastDiags entries ++ linksSizeAtMostDiags entries ++
  linksKeysAreDiags entries ++ linksValuesAreDiags inClass entries

/-- The links acceptance condition exactly as the claim words it: 1 to 12
entries, allowed keys, and every value a string of 1 to 1024 characters
(character count) drawn from the permitted classes.  Stated from the
claim's words so it can be compared with the validator model above, which
follows the source and measures UTF-8 bytes; the two disagree on multibyte
values. -/
def linksAcceptedClaimCharacters (inClass : Char → Bool)
    (entries : List (String × String)) : Prop :=
  1 ≤ entries.length ∧ entries.length ≤ 12 ∧
  ∀ kv ∈ entries, kv.1 ∈ allowedLinkKeys ∧
    1 ≤ kv.2.length ∧ kv.2.length ≤ 1024 ∧
    ∀ c ∈ kv.2.toList, inClass c = true

/-- Models the `terms_name` schema validator
`stringvalidator.RegexMatches(^(terms-of-use|privacy-policy)$, ...)` on a
known string value: an anchored alternation of two literals matches exactly
the two literals. -/
def termsNameDiags (s : String) : List Diagnostic :=
  if s == "terms-of-use" || s == "privacy-policy" then []
  else [{ severity := .error, summary := "Invalid Attribute Value Match",
          detail := "must be exactly \"terms-of-use\" or \"privacy-policy\", got: " ++ s }]

/-- Models `cognitoidentityprovider.DescribeTermsInput`. -/
structure DescribeTermsInput where
  termsId : Option String
  userPoolId : Option String
deriving DecidableEq, Repr

/-- Models `cognitoidentityprovider.DescribeTermsOutput`. -/
structure DescribeTermsOutput where
  terms : Option TermsType
deriving DecidableEq, Repr

/-- Models `cognitoidentityprovider.DeleteTermsInput`. -/
structure DeleteTermsInput where
  termsId : Option String
  userPoolId : Option String
deriving DecidableEq, Repr

/-- Models `cognitoidentityprovider.CreateTermsInput` (the fields filled in
by `fwflex.Expand` from the resource model). -/
structure CreateTermsInput where
  clientId : Option String
  enforcement : Option String
  links : List (String × String)
  termsName : Option String
  termsSource : Option String
  userPoolId : Option String
deriving DecidableEq, Repr

/-- Models `cognitoidentityprovider.CreateTermsOutput`. -/
structure CreateTermsOutput where
  terms : Option TermsType
deriving DecidableEq, Repr

/-- Models `cognitoidentityprovider.UpdateTermsInput`. -/
structure UpdateTermsInput where
  termsId : Option String
  clientId : Option String
  enforcement : Option String
  links : List (String × String)
  termsName : Option String
  termsSource : Option String
  userPoolId : Option String
deriving DecidableEq, Repr

/-- Models `cognitoidentityprovider.UpdateTermsOutput`. -/
structure UpdateTermsOutput where
  terms : Option TermsType
deriving DecidableEq, Repr

/-- Models the error value returned by `findManagedLoginTermsByTwoPartKey`:
a `sdkretry.NotFoundError` wrapping the SDK error and the request, the
`tfresource.NewEmptyResultError` for a nil output or nil `Terms`, or the
underlying SDK error passed through. -/
inductive FindError where
  | notFoundError (lastError : AwsError) (lastRequest : DescribeTermsInput)
  | emptyResult (input : DescribeTermsInput)
  | api (e : AwsError)
deriving DecidableEq, Repr

/-- Models `retry.NotFound(err)` on the error returned by the finder: true
exactly for the `sdkretry.NotFoundError` wrapper. -/
def FindError.isNotFound : FindError → Bool
  | .notFoundError _ _ => true
  | _ => false

/-- Models `err.Error()` for finder errors. -/
def FindError.message : FindError → String
  | .notFoundError e _ => e.message
  | .emptyResult _ => "empty result"
  | .api e => e.message

/-- Models `findManagedLoginTermsByTwoPartKey`.  The `DescribeTerms` API call
is a function parameter returning the Go pair (output pointer, error); the
Go code inspects the error first, so the output component is only read when
the error is nil. -/
def findManagedLoginTermsByTwoPartKey
    (describeTerms : DescribeTermsInput → Option DescribeTermsOutput × Option AwsError)
    (userPoolID termsID : String) : Except FindError TermsType :=
  let input : DescribeTermsInput := { termsId := some termsID, userPoolId := some userPoolID }
  let (output, err) := describeTerms input
  match err with
  | some e =>
      if e.isResourceNotFound then .error (.notFoundError e input)
      else .error (.api e)
  | none =>
      match output with
      | none => .error (.emptyResult input)
      | some out =>
          match out.terms with
          | none => .error (.emptyResult input)
          | some terms => .ok terms

/-- Models `fwdiag.NewResourceNotFoundWarningDiagnostic(err)`: a
warning-severity diagnostic built from the not-found error. -/
def resourceNotFoundWarningDiagnostic (e : FindError) : Diagnostic :=
  { severity := .warning
    summary := "AWS resource not found during refresh"
    detail := "Automatically removing from Terraform State instead of returning the error, which may trigger resource recreation. Original error: " ++ e.message }

/-- Outcome of the `Read` handler: the response diagnostics, whether
`response.State.RemoveResource` was called, and the state written by
`response.State.Set` (none when `Set` was never called). -/
structure ReadResponse where
  diags : List Diagnostic
  stateRemoved : Bool
  newState : Option ResourceModel
deriving Repr

/-- Models `managedLoginTermsResource.Read`.  Parameters: the outcome of
`request.State.Get`, the `DescribeTerms` API behaviour, and the behaviour of
`fwflex.Flatten` (diagnostics plus the updated model). -/
def read
    (stateGet : List Diagnostic × ResourceModel)
    (describeTerms : DescribeTermsInput → Option DescribeTermsOutput × Option AwsError)
    (flatten : TermsType → ResourceModel → List Diagnostic × ResourceModel) :
    ReadResponse :=
  let (gd, data) := stateGet
  if hasError gd then { diags := gd, stateRemoved := false, newState := none }
  else
    let userPoolID := data.userPoolID.valueString
    let termsID := data.managedLoginTermsID.valueString
    match findManagedLoginTermsByTwoPartKey describeTerms userPoolID termsID with
    | .error e =>
        if e.isNotFound then
          { diags := gd ++ [resourceNotFoundWarningDiagnostic e]
            stateRemoved := true, newState := none }
        else
          { diags := gd ++ [{ severity := .error
                              summary := "reading Cognito Managed Login Terms (" ++ termsID ++ ")"
                              detail := e.message }]
            stateRemoved := false, newState := none }
    | .ok terms =>
        let (fd, data2) := flatten terms data
        if hasError (gd ++ fd) then
          { diags := gd ++ fd, stateRemoved := false, newState := none }
        else
          { diags := gd ++ fd, stateRemoved := false
            newState := some { data2 with managedLoginTermsID := stringToFramework terms.termsId } }

/-- Models `managedLoginTermsResource.Delete`: the response diagnostics.
Parameters: the outcome of `request.State.Get` and the `DeleteTerms` API
behaviour (its output is discarded by the Go code, so only the error is
modelled). -/
def delete
    (stateGet : List Diagnostic × ResourceModel)
    (deleteTerms : DeleteTermsInput → Option AwsError) :
    List Diagnostic :=
  let (gd, data) := stateGet
  if hasError gd then gd
  else
    let userPoolID := data.userPoolID.valueString
    let termsID := data.managedLoginTermsID.valueString
    let input : DeleteTermsInput := { termsId := some termsID, userPoolId := some userPoolID }
    match deleteTerms input with
    | some e =>
        if e.isResourceNotFound then gd
        else gd ++ [{ severity := .error
                      summary := "deleting Cognito Managed Login Terms (" ++ termsID ++ ")"
                      detail := e.message }]
    | none => gd

/-- Outcome of the `Create` handler: the response diagnostics and the state
written by `response.State.Set` (none when `Set` was never called). -/
structure CreateResponse where
  diags : List Diagnostic
  newState : Option ResourceModel
deriving Repr

/-- Models `managedLoginTermsResource.Create`.  Parameters: the outcome of
`request.Plan.Get`, the behaviour of `fwflex.Expand` (diagnostics plus the
built API input), the `CreateTerms` API behaviour (output pointer, error),
and the behaviour of `fwflex.Flatten`. -/
def create
    (planGet : List Diagnostic × ResourceModel)
    (expand : ResourceModel → List Diagnostic × CreateTermsInput)
    (createTerms : CreateTermsInput → Option CreateTermsOutput × Option AwsError)
    (flatten : TermsType → ResourceModel → List Diagnostic × ResourceModel) :
    CreateResponse :=
  let (pd, data) := planGet
  if hasError pd then { diags := pd, newState := none }
  else
    let (ed, input) := expand data
    if hasError (pd ++ ed) then { diags := pd ++ ed, newState := none }
    else
      let (output, err) := createTerms input
      match err with
      | some e =>
          { diags := pd ++ ed ++
              [{ severity := .error
                 summary := "creating Cognito Managed Login Terms (" ++ data.clientID.valueString ++ ")"
                 detail := e.message }]
            newState := none }
      | none =>
          match output with
          | none =>
              { diags := pd ++ ed ++
                  [{ severity := .error, summary := "creating Cognito Managed Login Terms"
                     detail := "empty result" }]
                newState := none }
          | some out =>
              match out.terms with
              | none =>
                  { diags := pd ++ ed ++
                      [{ severity := .error, summary := "creating Cognito Managed Login Terms"
                         detail := "empty result" }]
                    newState := none }
              | some terms =>
                  let (fd, data2) := flatten terms data
                  if hasError (pd ++ ed ++ fd) then
                    { diags := pd ++ ed ++ fd, newState := none }
                  else
                    { diags := pd ++ ed ++ fd
                      newState := some { data2 with managedLoginTermsID := stringToFramework terms.termsId } }

/-- Outcome of the `Update` handler: the response diagnostics, the input of
the `UpdateTerms` API call when one was made (none when the handler returned
before calling the API), and the state written by `response.State.Set`. -/
structure UpdateResponse where
  diags : List Diagnostic
  apiCall : Option UpdateTermsInput
  newState : Option ResourceModel
deriving Repr

/-- Models `managedLoginTermsResource.Update`.  Parameters: the outcomes of
`request.Plan.Get` and `request.State.Get`, the behaviour of `fwflex.Expand`
on the plan, the `UpdateTerms` API behaviour, and the behaviour of
`fwflex.Flatten`.  After expansion the Go code overwrites `input.TermsId`
with the prior state's `managed_login_terms_id`, erroring out first when
that state value is null or unknown. -/
def update
    (planGet : List Diagnostic × ResourceModel)
    (stateGet : List Diagnostic × ResourceModel)
    (expand : ResourceModel → List Diagnostic × UpdateTermsInput)
    (updateTerms : UpdateTermsInput → Option UpdateTermsOutput × Option AwsError)
    (flatten : TermsType → ResourceModel → List Diagnostic × ResourceModel) :
    UpdateResponse :=
  let (pd, plan) := planGet
  if hasError pd then { diags := pd, apiCall := none, newState := none }
  else
    let (sd, state) := stateGet
    if hasError (pd ++ sd) then { diags := pd ++ sd, apiCall := none, newState := none }
    else
      let (ed, input0) := expand plan
      if hasError (pd ++ sd ++ ed) then
        { diags := pd ++ sd ++ ed, apiCall := none, newState := none }
      else if state.managedLoginTermsID.isNull || state.managedLoginTermsID.isUnknown then
        { diags := pd ++ sd ++ ed ++
            [{ severity := .error, summary := "updating Cognito Managed Login Terms"
               detail := "missing managed_login_terms_id in state" }]
          apiCall := none, newState := none }
      else
        let input := { input0 with termsId := some state.managedLoginTermsID.valueString }
        let (output, err) := updateTerms input
        match err with
        | some e =>
            { diags := pd ++ sd ++ ed ++
                [{ severity := .error
                   summary := "updating Cognito Managed Login Terms (" ++ state.managedLoginTermsID.valueString ++ ")"
                   detail := e.message }]
              apiCall := some input, newState := none }
        | none =>
            match output with
            | none =>
                { diags := pd ++ sd ++ ed ++
                    [{ severity := .error, summary := "updating Cognito Managed Login Terms"
                       detail := "empty result" }]
                  apiCall := some input, newState := none }
            | some out =>
                match out.terms with
                | none =>
                    { diags := pd ++ sd ++ ed ++
                        [{ severity := .error, summary := "updating Cognito Managed Login Terms"
                           detail := "empty result" }]
                      apiCall := some input, newState := none }
                | some terms =>
                    let (fd, plan2) := flatten terms plan
                    if hasError (pd ++ sd ++ ed ++ fd) then
                      { diags := pd ++ sd ++ ed ++ fd, apiCall := some input, newState := none }
                    else
                      { diags := pd ++ sd ++ ed ++ fd, apiCall := some input
                        newState := some { plan2 with managedLoginTermsID := stringToFramework terms.termsId } }

/-- Splitting a character list on every comma: the auxiliary recursion
behind `splitOnComma`. -/
def splitCharsOnComma : List Char → List (List Char)
  | [] => [[]]
  | c :: cs =>
      match splitCharsOnComma cs with
      | [] => [[]]
      | p :: ps => if c = ',' then [] :: p :: ps else (c :: p) :: ps

/-- Splitting a string on every occurrence of the separator "," (the
semantics of Go `strings.Split(id, ",")` for a one-character separator). -/
def splitOnComma (s : String) : List String :=
  (splitCharsOnComma s.toList).map List.asString

/-- Modelled from the spec: `intflex.ExpandResourceId` lives in
`internal/flex`, which is not part of the sources here; only its call site
`intflex.ExpandResourceId(request.ID, 2, true)` is.  The spec describes a
"two-part composite identity (user_pool_id + managed_login_terms_id) used
for lookup/import", imported as the two identifiers "separated by `,`"; both
identity components are non-empty strings under the schema, so the model
splits the ID on the separator "," and fails unless that yields exactly
`partCount` non-empty parts. -/
def expandResourceId (id : String) (partCount : Nat) : Except String (List String) :=
  let parts := splitOnComma id
  if parts.length ≠ partCount then
    .error ("unexpected format for ID (" ++ id ++ "), expected " ++ toString partCount ++ " parts separated by commas")
  else if parts.contains "" then
    .error ("unexpected format for ID (" ++ id ++ "), empty part")
  else .ok parts

/-- Models `fwdiag.NewParsingResourceIDErrorDiagnostic(err)`. -/
def parsingResourceIDErrorDiagnostic (msg : String) : Diagnostic :=
  { severity := .error
    summary := "Parsing Resource ID Error"
    detail := msg }

/-- Outcome of the `ImportState` handler: the response diagnostics and the
values handed to `response.State.SetAttribute` for `user_pool_id` and
`managed_login_terms_id` (none when `SetAttribute` was never called). -/
structure ImportResponse where
  diags : List Diagnostic
  userPoolID : Option String
  managedLoginTermsID : Option String
deriving DecidableEq, Repr

/-- Models `managedLoginTermsResource.ImportState`: split the import ID into
`managedLoginTermsIDParts = 2` parts; on failure add the parsing diagnostic
and return, on success set `user_pool_id` from the first part and
`managed_login_terms_id` from the second. -/
def importState (id : String) : ImportResponse :=
  match expandResourceId id 2 with
  | .error msg =>
      { diags := [parsingResourceIDErrorDiagnostic msg]
        userPoolID := none, managedLoginTermsID := none }
  | .ok parts =>
      { diags := []
        userPoolID := some (parts.getD 0 "")
        managedLoginTermsID := some (parts.getD 1 "") }

/-! Helper lemmas and sample data shared by the theorems below. -/

theorem hasError_append (a b : List Diagnostic) :
    hasError (a ++ b) = (hasError a || hasError b) := by
  simp [hasError, List.any_append]

theorem hasError_nil : hasError [] = false := rfl

/-- A concrete resource model used to instantiate universally quantified
theorems at sample inputs. -/
def sampleModel (links : FwMap) : ResourceModel :=
  { clientID := .value "client1"
    enforcement := .value "NONE"
    links := links
    managedLoginTermsID := .value "11111111-2222-4333-8444-555555555555"
    creationDate := .null
    lastModifiedDate := .null
    termsName := .value "terms-of-use"
    termsSource := .value "LINK"
    userPoolID := .value "us-west-2_pool" }

/-! Claim theorems. -/

/-- C1: for every configuration whose links map is present (a known map
value), the cross-field validator `ValidateResource` adds the
invalid-attribute diagnostic if and only if the map does not contain the key
"cognito:default", and a configuration whose links map contains that key
passes the validator with no diagnostic. -/
theorem validateResource_default_key_iff (m : ResourceModel)
    (entries : List (String × String)) (h : m.links = .value entries) :
    (invalidLinksDiagnostic ∈ validateResource ([], m) ↔
      "cognito:default" ∉ entries.map Prod.fst) ∧
    ("cognito:default" ∈ entries.map Prod.fst → validateResource ([], m) = []) := by
  have hmem : ((entries.map Prod.fst).contains "cognito:default" = true) ↔
      "cognito:default" ∈ entries.map Prod.fst := List.elem_iff
  by_cases hc : "cognito:default" ∈ entries.map Prod.fst
  · have hb := hmem.mpr hc
    simp [validateResource, hasError_nil, h, FwMap.isNull, FwMap.isUnknown, hb, hc]
  · have hb : (entries.map Prod.fst).contains "cognito:default" = false := by
      cases hcb : (entries.map Prod.fst).contains "cognito:default" with
      | false => rfl
      | true => exact absurd (hmem.mp hcb) hc
    simp [validateResource, hasError_nil, h, FwMap.isNull, FwMap.isUnknown, hb, hc]

/-- Witness for C1 at a concrete configuration containing the default key. -/
theorem validateResource_default_key_iff_witness :
    validateResource ([], sampleModel (.value [("cognito:default", "https://example.com/terms")])) = [] :=
  (validateResource_default_key_iff
    (sampleModel (.value [("cognito:default", "https://example.com/terms")]))
    [("cognito:default", "https://example.com/terms")] rfl).2 (by decide)

/-- C9: for every configuration whose links attribute is null or unknown,
`ValidateResource` returns without adding any diagnostic, so the
`cognito:default` requirement is not enforced at validate time in that
case. -/
theorem validateResource_skips_null_unknown (gd : List Diagnostic) (m : ResourceModel)
    (hgd : hasError gd = false)
    (h : m.links.isNull || m.links.isUnknown) :
    validateResource (gd, m) = gd := by
  simp only [Bool.or_eq_true] at h
  cases h with
  | inl hn => simp [validateResource, hgd, hn]
  | inr hu => simp [validateResource, hgd, hu]

/-- Witness for C9 at a concrete configuration with a null links map. -/
theorem validateResource_skips_null_unknown_witness :
    validateResource ([], sampleModel .null) = [] :=
  validateResource_skips_null_unknown [] (sampleModel .null) rfl (by decide)

/-- C8: the `terms_name` attribute is accepted by its schema validator if and
only if its value is exactly "terms-of-use" or exactly "privacy-policy". -/
theorem termsNameDiags_accepts_iff (s : String) :
    termsNameDiags s = [] ↔ (s = "terms-of-use" ∨ s = "privacy-policy") := by
  by_cases h1 : s = "terms-of-use"
  · simp [termsNameDiags, h1]
  · by_cases h2 : s = "privacy-policy"
    · simp [termsNameDiags, h2]
    · simp [termsNameDiags, h1, h2]

theorem utf8ByteSize_eq_zero_of_toList_eq_nil (s : String) (h : s.toList = []) :
    s.utf8ByteSize = 0 := by
  cases s with
  | mk data =>
    simp only [String.toList] at h
    subst h
    rfl

/-- C2 (amended): the links attribute is accepted by its schema validators
if and only if the map has at least 1 and at most 12 entries, every key is
one of the allowed Cognito language keys, and every value is a string of 1
to 1024 UTF-8 bytes all of whose characters are drawn from the permitted
character classes.  `stringvalidator.LengthBetween` measures the Go byte
length, not the character count, and the theorem holds for every extension
of the value character class. -/
theorem linksSchemaDiags_accepts_iff (inClass : Char → Bool)
    (entries : List (String × String)) :
    linksSchemaDiags inClass entries = [] ↔
      (1 ≤ entries.length ∧ entries.length ≤ 12 ∧
       ∀ kv ∈ entries, kv.1 ∈ allowedLinkKeys ∧
         1 ≤ kv.2.utf8ByteSize ∧ kv.2.utf8ByteSize ≤ 1024 ∧
         ∀ c ∈ kv.2.toList, inClass c = true) := by
  have h1 : (linksSizeAtLeastDiags entries = []) ↔ 1 ≤ entries.length := by
    simp only [linksSizeAtLeastDiags, ite_eq_right_iff, List.cons_ne_nil, imp_false]
    omega
  have h2 : (linksSizeAtMostDiags entries = []) ↔ entries.length ≤ 12 := by
    simp only [linksSizeAtMostDiags, ite_eq_right_iff, List.cons_ne_nil, imp_false]
    omega
  have h3 : (linksKeysAreDiags entries = []) ↔ ∀ kv ∈ entries, kv.1 ∈ allowedLinkKeys := by
    rw [linksKeysAreDiags, List.flatMap_eq_nil_iff]
    constructor
    · intro h kv hkv
      have hk := h kv hkv
      by_cases hc : allowedLinkKeys.contains kv.1 = true
      · exact List.elem_iff.mp hc
      · simp [hc] at hk
        exact hk
    · intro h kv hkv
      have hm := h kv hkv
      simp [hm]
  have h4 : (linksValuesAreDiags inClass entries = []) ↔
      ∀ kv ∈ entries, (1 ≤ kv.2.utf8ByteSize ∧ kv.2.utf8ByteSize ≤ 1024) ∧
        (kv.2.toList ≠ [] ∧ ∀ c ∈ kv.2.toList, inClass c = true) := by
    rw [linksValuesAreDiags, List.flatMap_eq_nil_iff]
    constructor
    · intro h kv hkv
      have hk := h kv hkv
      rw [List.append_eq_nil] at hk
      obtain ⟨ha, hb⟩ := hk
      constructor
      · have hc1 : ¬ kv.2.utf8ByteSize < 1 := by
          intro hl; simp [hl] at ha
        have hc2 : ¬ kv.2.utf8ByteSize > 1024 := by
          intro hl; simp [hl] at ha
        omega
      · by_cases hm : (!kv.2.toList.isEmpty && kv.2.toList.all inClass) = true
        · rw [Bool.and_eq_true, Bool.not_eq_true'] at hm
          refine ⟨?_, fun c hc => List.all_eq_true.mp hm.2 c hc⟩
          intro hnil
          rw [hnil] at hm
          exact absurd hm.1 (by simp)
        · rw [if_neg hm] at hb
          exact absurd hb (by simp)
    · intro h kv hkv
      obtain ⟨⟨hl1, hl2⟩, hne, hall⟩ := h kv hkv
      rw [List.append_eq_nil]
      constructor
      · have hc1 : ¬ kv.2.utf8ByteSize < 1 := by omega
        have hc2 : ¬ kv.2.utf8ByteSize > 1024 := by omega
        simp [hc1, hc2]
      · have hemp : kv.2.toList.isEmpty = false := by
          cases htl : kv.2.toList with
          | nil => exact absurd htl hne
          | cons c cs => rfl
        have hcond : (!kv.2.toList.isEmpty && kv.2.toList.all inClass) = true := by
          rw [hemp, List.all_eq_true.mpr hall]
          rfl
        rw [if_pos hcond]
  rw [linksSchemaDiags, List.append_eq_nil, List.append_eq_nil, List.append_eq_nil,
    h1, h2, h3, h4]
  constructor
  · rintro ⟨⟨⟨ha, hb⟩, hc⟩, hd⟩
    exact ⟨ha, hb, fun kv hkv =>
      ⟨hc kv hkv, (hd kv hkv).1.1, (hd kv hkv).1.2, (hd kv hkv).2.2⟩⟩
  · rintro ⟨ha, hb, hc⟩
    refine ⟨⟨⟨ha, hb⟩, fun kv hkv => (hc kv hkv).1⟩, fun kv hkv => ?_⟩
    refine ⟨⟨(hc kv hkv).2.1, (hc kv hkv).2.2.1⟩, ?_, (hc kv hkv).2.2.2⟩
    intro hnil
    have hz := utf8ByteSize_eq_zero_of_toList_eq_nil kv.2 hnil
    have h1b := (hc kv hkv).2.1
    omega

set_option maxRecDepth 10000 in
/-- Counterexample to C2 as stated: a single-entry links map whose value is
600 copies of the two-byte character é satisfies the claim's
1-to-1024-characters reading (600 characters, every one of them in the
class, é being a letter), yet the schema validators reject it, because
`stringvalidator.LengthBetween(1, 1024)` measures the Go string length of
1200 UTF-8 bytes. -/
theorem linksSchema_character_count_counterexample :
    linksAcceptedClaimCharacters (fun c => c == 'é')
        [("cognito:default", String.mk (List.replicate 600 'é'))] ∧
    linksSchemaDiags (fun c => c == 'é')
        [("cognito:default", String.mk (List.replicate 600 'é'))] ≠ [] := by
  constructor
  · unfold linksAcceptedClaimCharacters
    decide
  · decide

/-- C7: `findManagedLoginTermsByTwoPartKey` issues a `DescribeTerms` request
carrying both the user pool ID and the terms ID, and its result is exactly
one of: a not-found error when the call fails with
`ResourceNotFoundException`, the underlying error when it fails otherwise,
an empty-result error when the response or its `Terms` field is nil, or the
non-nil `TermsType` with nil error. -/
theorem findManagedLoginTerms_cases
    (describeTerms : DescribeTermsInput → Option DescribeTermsOutput × Option AwsError)
    (userPoolID termsID : String) :
    (∃ e, (describeTerms { termsId := some termsID, userPoolId := some userPoolID }).2 = some e ∧
        e.isResourceNotFound = true ∧
        findManagedLoginTermsByTwoPartKey describeTerms userPoolID termsID =
          .error (.notFoundError e { termsId := some termsID, userPoolId := some userPoolID })) ∨
    (∃ e, (describeTerms { termsId := some termsID, userPoolId := some userPoolID }).2 = some e ∧
        e.isResourceNotFound = false ∧
        findManagedLoginTermsByTwoPartKey describeTerms userPoolID termsID = .error (.api e)) ∨
    ((describeTerms { termsId := some termsID, userPoolId := some userPoolID }).2 = none ∧
      ((describeTerms { termsId := some termsID, userPoolId := some userPoolID }).1 = none ∨
        ∃ out, (describeTerms { termsId := some termsID, userPoolId := some userPoolID }).1 = some out ∧
          out.terms = none) ∧
      findManagedLoginTermsByTwoPartKey describeTerms userPoolID termsID =
        .error (.emptyResult { termsId := some termsID, userPoolId := some userPoolID })) ∨
    (∃ out terms, (describeTerms { termsId := some termsID, userPoolId := some userPoolID }).2 = none ∧
      (describeTerms { termsId := some termsID, userPoolId := some userPoolID }).1 = some out ∧
      out.terms = some terms ∧
      findManagedLoginTermsByTwoPartKey describeTerms userPoolID termsID = .ok terms) := by
  rcases hd : describeTerms { termsId := some termsID, userPoolId := some userPoolID }
    with ⟨output, err⟩
  cases err with
  | some e =>
      cases hnf : e.isResourceNotFound with
      | true =>
          refine Or.inl ⟨e, rfl, hnf, ?_⟩
          simp [findManagedLoginTermsByTwoPartKey, hd, hnf]
      | false =>
          refine Or.inr (Or.inl ⟨e, rfl, hnf, ?_⟩)
          simp [findManagedLoginTermsByTwoPartKey, hd, hnf]
  | none =>
      cases output with
      | none =>
          refine Or.inr (Or.inr (Or.inl ⟨rfl, Or.inl rfl, ?_⟩))
          simp [findManagedLoginTermsByTwoPartKey, hd]
      | some out =>
          cases hterms : out.terms with
          | none =>
              refine Or.inr (Or.inr (Or.inl ⟨rfl, Or.inr ⟨out, rfl, hterms⟩, ?_⟩))
              simp [findManagedLoginTermsByTwoPartKey, hd, hterms]
          | some terms =>
              refine Or.inr (Or.inr (Or.inr ⟨out, terms, rfl, rfl, hterms, ?_⟩))
              simp [findManagedLoginTermsByTwoPartKey, hd, hterms]

/-- C3: a missing backing object is treated as already gone.  When the
lookup returns a not-found error, `Read` removes the resource from state,
adds exactly one diagnostic which is a warning (so no error), and never
writes state; when `DeleteTerms` fails with `ResourceNotFoundException`,
`Delete` returns successfully, adding no diagnostic at all. -/
theorem read_delete_treat_missing_as_gone
    (stateGet : List Diagnostic × ResourceModel)
    (describeTerms : DescribeTermsInput → Option DescribeTermsOutput × Option AwsError)
    (flatten : TermsType → ResourceModel → List Diagnostic × ResourceModel)
    (deleteTerms : DeleteTermsInput → Option AwsError)
    (e : FindError) (edel : AwsError)
    (hgd : hasError stateGet.1 = false)
    (hfind : findManagedLoginTermsByTwoPartKey describeTerms
      stateGet.2.userPoolID.valueString stateGet.2.managedLoginTermsID.valueString = .error e)
    (hnf : e.isNotFound = true)
    (hdel : deleteTerms { termsId := some stateGet.2.managedLoginTermsID.valueString
                          userPoolId := some stateGet.2.userPoolID.valueString } = some edel)
    (hnfdel : edel.isResourceNotFound = true) :
    ((read stateGet describeTerms flatten).stateRemoved = true ∧
     (read stateGet describeTerms flatten).newState = none ∧
     (read stateGet describeTerms flatten).diags =
       stateGet.1 ++ [resourceNotFoundWarningDiagnostic e] ∧
     (resourceNotFoundWarningDiagnostic e).severity = .warning ∧
     hasError (read stateGet describeTerms flatten).diags = false) ∧
    (delete stateGet deleteTerms = stateGet.1 ∧
     hasError (delete stateGet deleteTerms) = false) := by
  obtain ⟨gd, data⟩ := stateGet
  simp only at hgd hfind hdel
  have hread : read (gd, data) describeTerms flatten =
      { diags := gd ++ [resourceNotFoundWarningDiagnostic e]
        stateRemoved := true, newState := none } := by
    rw [read]
    simp only [hgd, Bool.false_eq_true, if_false, hfind, hnf, if_true]
  have hdelete : delete (gd, data) deleteTerms = gd := by
    rw [delete]
    simp only [hgd, Bool.false_eq_true, if_false, hdel, hnfdel, if_true]
  refine ⟨⟨?_, ?_, ?_, rfl, ?_⟩, ?_, ?_⟩
  · rw [hread]
  · rw [hread]
  · rw [hread]
  · rw [hread]
    show hasError (gd ++ [resourceNotFoundWarningDiagnostic e]) = false
    rw [hasError_append, hgd]
    simp [hasError, resourceNotFoundWarningDiagnostic]
  · rw [hdelete]
  · rw [hdelete]
    exact hgd

/-- Witness for C3: a concrete state, a describe call failing with
`ResourceNotFoundException`, and a delete call failing the same way. -/
theorem read_delete_treat_missing_as_gone_witness :
    (read ([], sampleModel .null) (fun _ => (none, some (.resourceNotFound "gone")))
        (fun _ m => ([], m))).stateRemoved = true ∧
    hasError (delete ([], sampleModel .null) (fun _ => some (.resourceNotFound "gone"))) = false := by
  have h := read_delete_treat_missing_as_gone
    ([], sampleModel .null)
    (fun _ => (none, some (.resourceNotFound "gone")))
    (fun _ m => ([], m))
    (fun _ => some (.resourceNotFound "gone"))
    (.notFoundError (.resourceNotFound "gone")
      { termsId := some (sampleModel .null).managedLoginTermsID.valueString
        userPoolId := some (sampleModel .null).userPoolID.valueString })
    (.resourceNotFound "gone")
    rfl rfl rfl rfl rfl
  exact ⟨h.1.1, h.2.2⟩

theorem hasError_append_error (a : List Diagnostic) (d : Diagnostic)
    (h : d.severity = .error) : hasError (a ++ [d]) = true := by
  rw [hasError_append]
  simp [hasError, h]

/-- C4: every `UpdateTerms` API call made by `Update` carries a `TermsId`
taken from the prior state's `managed_login_terms_id` (whatever `Expand`
produced from the plan), and when the state's `managed_login_terms_id` is
null or unknown, `Update` ends with an error diagnostic and makes no
`UpdateTerms` API call. -/
theorem update_termsId_from_state
    (planGet stateGet : List Diagnostic × ResourceModel)
    (expand : ResourceModel → List Diagnostic × UpdateTermsInput)
    (updateTerms : UpdateTermsInput → Option UpdateTermsOutput × Option AwsError)
    (flatten : TermsType → ResourceModel → List Diagnostic × ResourceModel) :
    (∀ i, (update planGet stateGet expand updateTerms flatten).apiCall = some i →
        i.termsId = some stateGet.2.managedLoginTermsID.valueString) ∧
    ((stateGet.2.managedLoginTermsID.isNull || stateGet.2.managedLoginTermsID.isUnknown) = true →
        hasError (update planGet stateGet expand updateTerms flatten).diags = true ∧
        (update planGet stateGet expand updateTerms flatten).apiCall = none) := by
  obtain ⟨pd, plan⟩ := planGet
  obtain ⟨sd, state⟩ := stateGet
  constructor
  · intro i
    simp only [update]
    split
    · simp
    · split
      · simp
      · split
        · simp
        · split
          · simp
          · split
            · intro hi
              rw [← Option.some_inj.mp hi]
            · split
              · intro hi
                rw [← Option.some_inj.mp hi]
              · split
                · intro hi
                  rw [← Option.some_inj.mp hi]
                · split
                  · intro hi
                    rw [← Option.some_inj.mp hi]
                  · intro hi
                    rw [← Option.some_inj.mp hi]
  · intro h4
    simp only [update]
    split
    · rename_i h1
      exact ⟨h1, rfl⟩
    · split
      · rename_i h2
        exact ⟨h2, rfl⟩
      · split
        · rename_i h3
          exact ⟨h3, rfl⟩
        · exact ⟨hasError_append_error _ _ rfl, by trivial⟩
/-- A concrete `UpdateTerms` input used to instantiate theorems. -/
def sampleUpdateInput : UpdateTermsInput :=
  { termsId := none
    clientId := some "client1"
    enforcement := some "NONE"
    links := [("cognito:default", "https://example.com/terms")]
    termsName := some "terms-of-use"
    termsSource := some "LINK"
    userPoolId := some "us-west-2_pool" }

/-- Witness for C4: a successful update whose API call carries the state's
terms ID, and an update against a state with a null terms ID that errors out
without an API call. -/
theorem update_termsId_from_state_witness :
    UpdateTermsInput.termsId
        { sampleUpdateInput with termsId := some "11111111-2222-4333-8444-555555555555" } =
      some "11111111-2222-4333-8444-555555555555" ∧
    (hasError (update ([], sampleModel .null)
        ([], { sampleModel .null with managedLoginTermsID := FwString.null })
        (fun _ => ([], sampleUpdateInput))
        (fun _ => (some { terms := some { termsId := some "tid" } }, none))
        (fun _ m => ([], m))).diags = true ∧
      (update ([], sampleModel .null)
        ([], { sampleModel .null with managedLoginTermsID := FwString.null })
        (fun _ => ([], sampleUpdateInput))
        (fun _ => (some { terms := some { termsId := some "tid" } }, none))
        (fun _ m => ([], m))).apiCall = none) := by
  refine ⟨?_, ?_⟩
  · exact (update_termsId_from_state ([], sampleModel .null) ([], sampleModel .null)
      (fun _ => ([], sampleUpdateInput))
      (fun _ => (some { terms := some { termsId := some "tid" } }, none))
      (fun _ m => ([], m))).1
      { sampleUpdateInput with termsId := some "11111111-2222-4333-8444-555555555555" } rfl
  · exact (update_termsId_from_state ([], sampleModel .null)
      ([], { sampleModel .null with managedLoginTermsID := FwString.null })
      (fun _ => ([], sampleUpdateInput))
      (fun _ => (some { terms := some { termsId := some "tid" } }, none))
      (fun _ m => ([], m))).2 rfl

/-- C6: when `Create` writes state, the written state's
`managed_login_terms_id` is exactly the `TermsId` of the `CreateTerms`
response; and when `CreateTerms` returns an error, a nil output, or an
output with nil `Terms`, `Create` ends with an error diagnostic and writes
no state. -/
theorem create_state_id_from_response
    (pd : List Diagnostic) (data : ResourceModel)
    (expand : ResourceModel → List Diagnostic × CreateTermsInput)
    (createTerms : CreateTermsInput → Option CreateTermsOutput × Option AwsError)
    (flatten : TermsType → ResourceModel → List Diagnostic × ResourceModel)
    (ed : List Diagnostic) (input : CreateTermsInput)
    (output : Option CreateTermsOutput) (err : Option AwsError)
    (hexp : expand data = (ed, input))
    (hct : createTerms input = (output, err)) :
    (∀ d, (create (pd, data) expand createTerms flatten).newState = some d →
        ∃ out terms, output = some out ∧ out.terms = some terms ∧
          d.managedLoginTermsID = stringToFramework terms.termsId) ∧
    (hasError pd = false → hasError ed = false →
      (err ≠ none ∨ output = none ∨ (∃ out, output = some out ∧ out.terms = none)) →
      hasError (create (pd, data) expand createTerms flatten).diags = true ∧
      (create (pd, data) expand createTerms flatten).newState = none) := by
  constructor
  · intro d hd
    simp only [create, hexp, hct] at hd
    by_cases h1 : hasError pd = true
    · simp [h1] at hd
    · simp only [h1, Bool.false_eq_true, if_false] at hd
      by_cases h2 : hasError (pd ++ ed) = true
      · simp [h2] at hd
      · simp only [h2, Bool.false_eq_true, if_false] at hd
        cases err with
        | some e => simp at hd
        | none =>
          cases output with
          | none => simp at hd
          | some out =>
            cases hterms : out.terms with
            | none => simp [hterms] at hd
            | some terms =>
              simp only [hterms] at hd
              rcases hft : flatten terms data with ⟨fd, data2⟩
              rw [hft] at hd
              by_cases h3 : hasError (pd ++ ed ++ fd) = true
              · rw [if_pos h3] at hd
                simp at hd
              · simp only [h3, Bool.false_eq_true, if_false, Option.some_inj] at hd
                exact ⟨out, terms, rfl, hterms, by rw [← hd]⟩
  · intro hpd hed herr
    have h12 : hasError (pd ++ ed) = false := by
      rw [hasError_append, hpd, hed]
      rfl
    simp only [create, hexp, hct, hpd, h12, Bool.false_eq_true, if_false]
    rcases herr with herr | herr | ⟨out, hout, hterms⟩
    · cases err with
      | none => exact absurd rfl herr
      | some e => exact ⟨hasError_append_error _ _ rfl, by trivial⟩
    · cases err with
      | some e => exact ⟨hasError_append_error _ _ rfl, by trivial⟩
      | none =>
          rw [herr]
          exact ⟨hasError_append_error _ _ rfl, by trivial⟩
    · cases err with
      | some e => exact ⟨hasError_append_error _ _ rfl, by trivial⟩
      | none =>
          rw [hout]
          simp only [hterms]
          exact ⟨hasError_append_error _ _ rfl, by trivial⟩

/-- A concrete `CreateTerms` input used to instantiate theorems. -/
def sampleCreateInput : CreateTermsInput :=
  { clientId := some "client1"
    enforcement := some "NONE"
    links := [("cognito:default", "https://example.com/terms")]
    termsName := some "terms-of-use"
    termsSource := some "LINK"
    userPoolId := some "us-west-2_pool" }

/-- Witness for C6: a successful create whose written state carries the
returned terms ID, and a create whose API call fails and therefore ends
with an error diagnostic and no state write. -/
theorem create_state_id_from_response_witness :
    (∃ out terms,
      (some { terms := some { termsId := some "tid" } } : Option CreateTermsOutput) = some out ∧
      out.terms = some terms ∧
      ResourceModel.managedLoginTermsID
          { sampleModel .null with managedLoginTermsID := FwString.value "tid" } =
        stringToFramework terms.termsId) ∧
    (hasError (create ([], sampleModel .null) (fun _ => ([], sampleCreateInput))
        (fun _ => (none, some (.other "boom"))) (fun _ m => ([], m))).diags = true ∧
      (create ([], sampleModel .null) (fun _ => ([], sampleCreateInput))
        (fun _ => (none, some (.other "boom"))) (fun _ m => ([], m))).newState = none) := by
  constructor
  · exact (create_state_id_from_response [] (sampleModel .null)
      (fun _ => ([], sampleCreateInput))
      (fun _ => (some { terms := some { termsId := some "tid" } }, none))
      (fun _ m => ([], m))
      [] sampleCreateInput (some { terms := some { termsId := some "tid" } }) none
      rfl rfl).1
      { sampleModel .null with managedLoginTermsID := FwString.value "tid" } rfl
  · exact (create_state_id_from_response [] (sampleModel .null)
      (fun _ => ([], sampleCreateInput))
      (fun _ => (none, some (.other "boom")))
      (fun _ m => ([], m))
      [] sampleCreateInput none (some (.other "boom"))
      rfl rfl).2 rfl rfl (Or.inl (by simp))

/-- C10: `Create` and `Update` are atomic with respect to Terraform state:
whenever the handler's final diagnostics contain an error, the handler never
called `response.State.Set`, so no new state was written. -/
theorem create_update_atomic
    (planGet planGet2 stateGet : List Diagnostic × ResourceModel)
    (expandC : ResourceModel → List Diagnostic × CreateTermsInput)
    (createTerms : CreateTermsInput → Option CreateTermsOutput × Option AwsError)
    (expandU : ResourceModel → List Diagnostic × UpdateTermsInput)
    (updateTerms : UpdateTermsInput → Option UpdateTermsOutput × Option AwsError)
    (flattenC flattenU : TermsType → ResourceModel → List Diagnostic × ResourceModel) :
    (hasError (create planGet expandC createTerms flattenC).diags = true →
      (create planGet expandC createTerms flattenC).newState = none) ∧
    (hasError (update planGet2 stateGet expandU updateTerms flattenU).diags = true →
      (update planGet2 stateGet expandU updateTerms flattenU).newState = none) := by
  obtain ⟨pd, data⟩ := planGet
  obtain ⟨pd2, plan2⟩ := planGet2
  obtain ⟨sd, state⟩ := stateGet
  constructor
  · simp only [create]
    repeat' split
    all_goals intro h
    all_goals first
      | rfl
      | (rename_i hcond; exact absurd h hcond)
  · simp only [update]
    repeat' split
    all_goals intro h
    all_goals first
      | rfl
      | (rename_i hcond; exact absurd h hcond)

/-- Witness for C10: a create and an update that each fail at the
plan-read step with an error diagnostic and write no state. -/
theorem create_update_atomic_witness :
    (create ([{ severity := .error, summary := "boom", detail := "boom" }], sampleModel .null)
      (fun _ => ([], sampleCreateInput)) (fun _ => (none, some (.other "x")))
      (fun _ m => ([], m))).newState = none ∧
    (update ([{ severity := .error, summary := "boom", detail := "boom" }], sampleModel .null)
      ([], sampleModel .null) (fun _ => ([], sampleUpdateInput))
      (fun _ => (none, some (.other "x"))) (fun _ m => ([], m))).newState = none := by
  constructor
  · exact (create_update_atomic
      ([{ severity := .error, summary := "boom", detail := "boom" }], sampleModel .null)
      ([], sampleModel .null) ([], sampleModel .null)
      (fun _ => ([], sampleCreateInput)) (fun _ => (none, some (.other "x")))
      (fun _ => ([], sampleUpdateInput)) (fun _ => (none, some (.other "x")))
      (fun _ m => ([], m)) (fun _ m => ([], m))).1 rfl
  · exact (create_update_atomic ([], sampleModel .null)
      ([{ severity := .error, summary := "boom", detail := "boom" }], sampleModel .null)
      ([], sampleModel .null)
      (fun _ => ([], sampleCreateInput)) (fun _ => (none, some (.other "x")))
      (fun _ => ([], sampleUpdateInput)) (fun _ => (none, some (.other "x")))
      (fun _ m => ([], m)) (fun _ m => ([], m))).2 rfl

/-- C5: `ImportState` splits the import ID on "," expecting exactly two
non-empty parts; on success it sets `user_pool_id` to the first part and
`managed_login_terms_id` to the second, and on any other ID it adds a
parsing-error diagnostic and sets no attributes. -/
theorem importState_composite_id (id : String) :
    (((splitOnComma id).length = 2 ∧ "" ∉ splitOnComma id) →
      importState id = { diags := []
                         userPoolID := some ((splitOnComma id).getD 0 "")
                         managedLoginTermsID := some ((splitOnComma id).getD 1 "") }) ∧
    (¬ ((splitOnComma id).length = 2 ∧ "" ∉ splitOnComma id) →
      (importState id).userPoolID = none ∧ (importState id).managedLoginTermsID = none ∧
      ∃ msg, (importState id).diags = [parsingResourceIDErrorDiagnostic msg]) := by
  constructor
  · rintro ⟨hlen, hmem⟩
    have hc : (splitOnComma id).contains "" = false := by
      cases hcb : (splitOnComma id).contains "" with
      | false => rfl
      | true => exact absurd (List.elem_iff.mp hcb) hmem
    simp only [importState, expandResourceId]
    rw [if_neg (not_not_intro hlen),
      if_neg (fun hcb => absurd (List.elem_iff.mp hcb) hmem)]
  · intro hnot
    by_cases hlen : (splitOnComma id).length = 2
    · have hmem : "" ∈ splitOnComma id := by
        by_contra hmem
        exact hnot ⟨hlen, hmem⟩
      have hc : (splitOnComma id).contains "" = true := List.elem_iff.mpr hmem
      simp only [importState, expandResourceId]
      rw [if_neg (not_not_intro hlen), if_pos hc]
      exact ⟨rfl, rfl, _, rfl⟩
    · simp only [importState, expandResourceId]
      rw [if_pos hlen]
      exact ⟨rfl, rfl, _, rfl⟩

/-- Witness for C5: the two-part ID "a,b" imports with `user_pool_id = a`
and `managed_login_terms_id = b`; the one-part ID "a" yields a parsing
error and no attributes. -/
theorem importState_composite_id_witness :
    importState "a,b" = { diags := [], userPoolID := some "a", managedLoginTermsID := some "b" } ∧
    (importState "a").userPoolID = none := by
  constructor
  · exact (importState_composite_id "a,b").1 (by decide)
  · exact ((importState_composite_id "a").2 (by decide)).1

end ManagedLoginTerms
